import Mathlib

/-!
Shallow embedding of the weekly meal-plan generator (`make_plan`), the nutrition
analyzer (`analyze_menu_plan`), the daily-totals aggregation inside `export_plan`,
and the transposed-spreadsheet export/import pipeline of `meal_ai.py` / `app.py`.

Conventions of the embedding:
* DataFrames of menu rows become `List MenuItem`; plan DataFrames become
  `List DayRow` / `List DayPlan` (one entry per `요일` row, one field per column).
* Numbers stored in the `menus` table (INTEGER / REAL columns) are idealized as `Rat`.
* `df.sample(1)` becomes `sample`, which returns `none` on an empty frame — the
  `ValueError` pandas raises there is modelled as an `Except.error`.
* Randomness is an explicit parameter: the indices consumed by the `.sample(1)`
  calls and the boolean outcome of `random.random() < 0.2` for each weekday.
* `NaN` cells and absent columns are modelled as the empty string: every consumer
  in the source (`pd.notna(...) and str(...).strip() != ""`, the `row_name in
  plan_df.columns` checks) treats them identically to `""`.
-/

namespace MealAI

/-- Nutrition facts of one menu row: the `calories`, `protein`, `fat`, `carbs`,
`sodium` columns of the `menus` table, idealized as integers (the classification
contract asks for integer nutrition values, and no verified property depends on
fractional values — sums of integers model sums of the stored numbers). -/
structure Nutrition where
  calories : Int
  protein : Int
  fat : Int
  carbs : Int
  sodium : Int
deriving DecidableEq, Repr

def Nutrition.zero : Nutrition := ⟨0, 0, 0, 0, 0⟩

/-- Componentwise sum, as in `groupby("요일").agg({... "sum" ...})`. -/
def Nutrition.add (a b : Nutrition) : Nutrition :=
  ⟨a.calories + b.calories, a.protein + b.protein, a.fat + b.fat,
   a.carbs + b.carbs, a.sodium + b.sodium⟩

/-- One row of the `menus` table. -/
structure MenuItem where
  name : String
  category : String
  nutrition : Nutrition
deriving DecidableEq, Repr

abbrev Catalog := List MenuItem

/-- The fixed weekday order `["월", "화", "수", "목", "금"]`. -/
def weekdays : List String := ["월", "화", "수", "목", "금"]

/-- The slot columns the analyzer iterates over (`meal_types` in
`analyze_menu_plan`): rice (`잡곡밥`) is deliberately absent. -/
def mealTypes : List String := ["국/수프", "메인", "사이드1", "사이드2", "기타"]

/-- The fixed slot-row order used by `export_plan` and the import handler. -/
def rowOrder : List String := ["잡곡밥", "국/수프", "메인", "사이드1", "사이드2", "기타"]

/-! ### Plan generator (`make_plan`) -/

/-- The random draws `make_plan` performs for one weekday: the row indices fed
to the four `.sample(1)` calls, the outcome of `random.random() < 0.2`, and the
index for the optional extra (`기타`) draw. -/
structure DayRand where
  soup : Nat
  main : Nat
  side1 : Nat
  side2 : Nat
  etcP : Bool
  etc : Nat

/-- One row of `l` (`df.sample(1)`), chosen by the random index `r`; `none`
models the `ValueError` pandas raises when the frame is empty. -/
def sample (l : List α) (r : Nat) : Option α := l.get? (r % l.length)

/-- The generator's failure: a `.sample(1)` call on an empty candidate frame,
tagged by the slot whose draw failed. -/
inductive MealErr where
  | emptyCandidates (slot : String)
deriving DecidableEq, Repr

/-- The spec's `EmptyCatalogError`: failure of one of the three mandatory
category draws (`국/수프`, `메인`, `사이드1`).  Those draws fall back to the whole
category when the unused pool is empty, so they fail exactly when the category
has zero items anywhere in the catalog. -/
def MealErr.isEmptyCatalogError : MealErr → Bool
  | .emptyCandidates s => s == "국/수프" || s == "메인" || s == "사이드1"

/-- The category selection `menus[menus["category"] == c]`. -/
def catItems (menus : Catalog) (c : String) : Catalog :=
  menus.filter (fun m => m.category == c)

/-- The unused pool `menus[(menus["category"] == c) & (~menus["name"].isin(used_menus))]`. -/
def availableIn (menus : Catalog) (c : String) (used : List String) : Catalog :=
  menus.filter (fun m => m.category == c && !(used.contains m.name))

/-- The extra categories `menus[~menus["category"].isin(["수프", "메인", "사이드"])]`. -/
def etcAll (menus : Catalog) : Catalog :=
  menus.filter (fun m => !(["수프", "메인", "사이드"].contains m.category))

/-- The unused pool of the extra (`기타`) categories. -/
def etcAvailable (menus : Catalog) (used : List String) : Catalog :=
  menus.filter (fun m =>
    !(["수프", "메인", "사이드"].contains m.category) && !(used.contains m.name))

/-- The fallback `if available_x.empty: available_x = <unrestricted set>`. -/
def withFallback (avail alt : Catalog) : Catalog := if avail.isEmpty then alt else avail

/-- One `.sample(1)` call: succeeds with a row, or fails (`ValueError`) on an
empty frame, tagged with the slot being drawn. -/
def pick (l : Catalog) (r : Nat) (slot : String) : Except MealErr MenuItem :=
  match sample l r with
  | some m => .ok m
  | none => .error (.emptyCandidates slot)

/-- One row of the generated plan DataFrame: columns `요일`, `잡곡밥`, `국/수프`,
`메인`, `사이드1`, `사이드2`, `기타`. -/
structure DayPlan where
  day : String
  rice : String
  soup : String
  main : String
  side1 : String
  side2 : String
  etc : String
deriving DecidableEq, Repr

/-- The body of `make_plan`'s per-weekday loop: computes the four candidate
pools (with fallback), draws soup, main, side1, side2, optionally an extra
menu (20% branch), fixes rice to the literal `잡곡밥`, and extends `used_menus`. -/
def makeDay (menus : Catalog) (used : List String) (day : String) (rnd : DayRand) :
    Except MealErr (DayPlan × List String) := do
  let availSoup := withFallback (availableIn menus "수프" used) (catItems menus "수프")
  let availMain := withFallback (availableIn menus "메인" used) (catItems menus "메인")
  let availSide := withFallback (availableIn menus "사이드" used) (catItems menus "사이드")
  let availEtc := withFallback (etcAvailable menus used) (etcAll menus)
  let soupM ← pick availSoup rnd.soup "국/수프"
  let mainM ← pick availMain rnd.main "메인"
  let side1M ← pick availSide rnd.side1 "사이드1"
  let side2M ← pick (availSide.filter (fun m => m.name != side1M.name)) rnd.side2 "사이드2"
  let etcPair :=
    if !availEtc.isEmpty && rnd.etcP then
      match sample availEtc rnd.etc with
      | some m => (m.name, used ++ [m.name])
      | none => ("", used)
    else ("", used)
  let used2 := etcPair.2 ++ [soupM.name, mainM.name, side1M.name, side2M.name, "잡곡밥"]
  .ok (⟨day, "잡곡밥", soupM.name, mainM.name, side1M.name, side2M.name, etcPair.1⟩, used2)

/-- The fold of `makeDay` over the weekday list, threading `used_menus`. -/
def makePlanAux (menus : Catalog) : List String → (Nat → DayRand) → List String →
    Except MealErr (List DayPlan)
  | [], _, _ => .ok []
  | d :: ds, rnd, used => do
    let r ← makeDay menus used d (rnd 0)
    let rest ← makePlanAux menus ds (fun i => rnd (i + 1)) r.2
    .ok (r.1 :: rest)

/-- The weekly plan generator `make_plan`, with the random source explicit. -/
def make_plan (menus : Catalog) (rnd : Nat → DayRand) : Except MealErr (List DayPlan) :=
  makePlanAux menus weekdays rnd []

/-! ### Generator lemmas -/

theorem sample_nil (r : Nat) : sample ([] : List α) r = none := rfl

theorem sample_mem {l : List α} {r : Nat} {x : α} (h : sample l r = some x) : x ∈ l :=
  List.get?_mem h

theorem sample_some_of_ne_nil {l : List α} (h : l ≠ []) (r : Nat) :
    ∃ x, sample l r = some x := by
  have hlt : r % l.length < l.length := Nat.mod_lt _ (List.length_pos.mpr h)
  exact ⟨l.get ⟨r % l.length, hlt⟩, List.get?_eq_get hlt⟩

theorem pick_nil (r : Nat) (slot : String) :
    pick ([] : Catalog) r slot = .error (.emptyCandidates slot) := rfl

theorem pick_ok_mem {l : Catalog} {r : Nat} {slot : String} {m : MenuItem}
    (h : pick l r slot = .ok m) : m ∈ l := by
  unfold pick at h
  cases hs : sample l r with
  | none => rw [hs] at h; cases h
  | some x => rw [hs] at h; injection h with h; subst h; exact sample_mem hs

theorem pick_ok_of_ne_nil {l : Catalog} (h : l ≠ []) (r : Nat) (slot : String) :
    ∃ m, pick l r slot = .ok m := by
  obtain ⟨x, hx⟩ := sample_some_of_ne_nil h r
  exact ⟨x, by unfold pick; rw [hx]⟩

theorem availableIn_nil (menus : Catalog) (c : String) :
    availableIn menus c [] = catItems menus c := by
  simp [availableIn, catItems]

theorem withFallback_nil (alt : Catalog) : withFallback [] alt = alt := rfl

theorem withFallback_ne_nil {avail : Catalog} (h : avail ≠ []) (alt : Catalog) :
    withFallback avail alt = avail := by
  cases avail with
  | nil => exact absurd rfl h
  | cons a as => rfl

theorem errBind (e : MealErr) (f : α → Except MealErr β) :
    (Except.error e >>= f) = Except.error e := rfl

theorem okBind (a : α) (f : α → Except MealErr β) : (Except.ok a >>= f) = f a := rfl

/-- Inversion for a successful `makeDay`: the `사이드2` draw is made from the side
candidates filtered by `name != side1.name`, so the two side names differ. -/
theorem makeDay_ok_side_ne {menus : Catalog} {used : List String} {day : String}
    {rnd : DayRand} {dp : DayPlan} {used2 : List String}
    (h : makeDay menus used day rnd = .ok (dp, used2)) : dp.side1 ≠ dp.side2 := by
  simp only [makeDay] at h
  cases h1 : pick (withFallback (availableIn menus "수프" used) (catItems menus "수프"))
      rnd.soup "국/수프" with
  | error e => rw [h1, errBind] at h; cases h
  | ok soupM =>
    rw [h1, okBind] at h
    cases h2 : pick (withFallback (availableIn menus "메인" used) (catItems menus "메인"))
        rnd.main "메인" with
    | error e => rw [h2, errBind] at h; cases h
    | ok mainM =>
      rw [h2, okBind] at h
      cases h3 : pick (withFallback (availableIn menus "사이드" used) (catItems menus "사이드"))
          rnd.side1 "사이드1" with
      | error e => rw [h3, errBind] at h; cases h
      | ok side1M =>
        rw [h3, okBind] at h
        cases h4 : pick ((withFallback (availableIn menus "사이드" used)
            (catItems menus "사이드")).filter (fun m => m.name != side1M.name))
            rnd.side2 "사이드2" with
        | error e => rw [h4, errBind] at h; cases h
        | ok side2M =>
          rw [h4, okBind] at h
          have hmem := pick_ok_mem h4
          have hne : (side2M.name != side1M.name) = true := (List.mem_filter.mp hmem).2
          injection h with h
          injection h with hA hB
          subst hA
          show side1M.name ≠ side2M.name
          intro hc
          rw [bne_iff_ne] at hne
          exact hne hc.symm

theorem makePlanAux_ok_side_ne (menus : Catalog) (ds : List String) :
    ∀ (rnd : Nat → DayRand) (used : List String) (plans : List DayPlan),
    makePlanAux menus ds rnd used = .ok plans → ∀ dp ∈ plans, dp.side1 ≠ dp.side2 := by
  induction ds with
  | nil =>
    intro rnd used plans h dp hdp
    simp only [makePlanAux] at h
    injection h with h
    subst h
    cases hdp
  | cons d ds ih =>
    intro rnd used plans h dp hdp
    simp only [makePlanAux] at h
    cases h1 : makeDay menus used d (rnd 0) with
    | error e => rw [h1, errBind] at h; cases h
    | ok r =>
      rw [h1, okBind] at h
      cases h2 : makePlanAux menus ds (fun i => rnd (i + 1)) r.2 with
      | error e => rw [h2, errBind] at h; cases h
      | ok rest =>
        rw [h2, okBind] at h
        injection h with h
        subst h
        rcases List.mem_cons.mp hdp with hh | hh
        · subst hh
          exact makeDay_ok_side_ne (show makeDay menus used d (rnd 0) = .ok (r.1, r.2) by
            rw [h1])
        · exact ih (fun i => rnd (i + 1)) r.2 rest h2 dp hh

/-- If a required category is empty in the whole catalog, the very first weekday's
draw for that slot fails on an empty frame even after the fallback. -/
theorem makeDay_first_empty_catalog (menus : Catalog) (day : String) (rnd : DayRand)
    (h : catItems menus "수프" = [] ∨ catItems menus "메인" = [] ∨
      catItems menus "사이드" = []) :
    ∃ e, makeDay menus [] day rnd = .error e ∧ e.isEmptyCatalogError = true := by
  by_cases hs : catItems menus "수프" = []
  · refine ⟨.emptyCandidates "국/수프", ?_, rfl⟩
    simp only [makeDay, availableIn_nil]
    rw [hs, withFallback_nil, pick_nil, errBind]
  · have hsne : withFallback (availableIn menus "수프" []) (catItems menus "수프") ≠ [] := by
      rw [availableIn_nil, withFallback_ne_nil hs]; exact hs
    obtain ⟨soupM, hsk⟩ := pick_ok_of_ne_nil hsne rnd.soup "국/수프"
    by_cases hm : catItems menus "메인" = []
    · refine ⟨.emptyCandidates "메인", ?_, rfl⟩
      simp only [makeDay]
      rw [hsk, okBind]
      simp only [availableIn_nil]
      rw [hm, withFallback_nil, pick_nil, errBind]
    · have hmne : withFallback (availableIn menus "메인" []) (catItems menus "메인") ≠ [] := by
        rw [availableIn_nil, withFallback_ne_nil hm]; exact hm
      obtain ⟨mainM, hmk⟩ := pick_ok_of_ne_nil hmne rnd.main "메인"
      by_cases hd : catItems menus "사이드" = []
      · refine ⟨.emptyCandidates "사이드1", ?_, rfl⟩
        simp only [makeDay]
        rw [hsk, okBind, hmk, okBind]
        simp only [availableIn_nil]
        rw [hd, withFallback_nil, pick_nil, errBind]
      · rcases h with h | h | h
        · exact absurd h hs
        · exact absurd h hm
        · exact absurd h hd

/-- C1: a catalog in which some mandatory category (`수프`, `메인`, `사이드`) has zero
items makes `make_plan` fail with the spec's `EmptyCatalogError`. -/
theorem make_plan_empty_catalog (menus : Catalog) (rnd : Nat → DayRand)
    (h : catItems menus "수프" = [] ∨ catItems menus "메인" = [] ∨
      catItems menus "사이드" = []) :
    ∃ e, make_plan menus rnd = .error e ∧ e.isEmptyCatalogError = true := by
  obtain ⟨e, he, hc⟩ := makeDay_first_empty_catalog menus "월" (rnd 0) h
  refine ⟨e, ?_, hc⟩
  simp only [make_plan, weekdays, makePlanAux]
  rw [he, errBind]

/-! ### Concrete inputs for the generator claims -/

/-- A deterministic random source: every draw picks index 0 and the 20% branch
is not taken. -/
def rnd0 : Nat → DayRand := fun _ => ⟨0, 0, 0, 0, false, 0⟩

/-- A catalog with one soup and no main item. -/
def menusNoMain : Catalog := [⟨"미역국", "수프", Nutrition.zero⟩]

/-- A catalog with one soup, one main and exactly one side item. -/
def menusOneSide : Catalog :=
  [⟨"된장국", "수프", Nutrition.zero⟩, ⟨"불고기", "메인", Nutrition.zero⟩,
   ⟨"김치", "사이드", Nutrition.zero⟩]

/-- A catalog with one soup, one main and three side items. -/
def menusThreeSides : Catalog :=
  [⟨"된장국", "수프", Nutrition.zero⟩, ⟨"불고기", "메인", Nutrition.zero⟩,
   ⟨"김치", "사이드", Nutrition.zero⟩, ⟨"샐러드", "사이드", Nutrition.zero⟩,
   ⟨"멸치볶음", "사이드", Nutrition.zero⟩]

/-- A catalog with one soup, one main and two side items. -/
def menusTwoSides : Catalog :=
  [⟨"된장국", "수프", Nutrition.zero⟩, ⟨"불고기", "메인", Nutrition.zero⟩,
   ⟨"김치", "사이드", Nutrition.zero⟩, ⟨"샐러드", "사이드", Nutrition.zero⟩]

/-- The plan `make_plan` produces on `menusTwoSides` under `rnd0`. -/
def plansTwoSides : List DayPlan :=
  [⟨"월", "잡곡밥", "된장국", "불고기", "김치", "샐러드", ""⟩,
   ⟨"화", "잡곡밥", "된장국", "불고기", "김치", "샐러드", ""⟩,
   ⟨"수", "잡곡밥", "된장국", "불고기", "김치", "샐러드", ""⟩,
   ⟨"목", "잡곡밥", "된장국", "불고기", "김치", "샐러드", ""⟩,
   ⟨"금", "잡곡밥", "된장국", "불고기", "김치", "샐러드", ""⟩]

/-- Witness for C1: on a catalog with zero `메인` items `make_plan` fails with an
`EmptyCatalogError`. -/
theorem make_plan_empty_catalog_witness :
    ∃ e, make_plan menusNoMain rnd0 = .error e ∧ e.isEmptyCatalogError = true :=
  make_plan_empty_catalog menusNoMain rnd0 (Or.inr (Or.inl (by decide)))

/-- C3 (code behavior at the failing input): with exactly one `사이드` item the
side2 candidate frame is empty on Monday, and `make_plan` fails (the `ValueError`
of `.sample(1)`) instead of leaving `사이드2` empty. -/
theorem make_plan_one_side_errors :
    make_plan menusOneSide rnd0 = .error (.emptyCandidates "사이드2") := by rfl

/-- C6 (code behavior at the failing input): a catalog with at least one item in
each mandatory category (`수프`, `메인`, and three `사이드` items) on which
`make_plan` fails on Tuesday — the single not-yet-used side item is drawn as
`사이드1`, leaving the `사이드2` frame empty — instead of returning 5 DayPlans. -/
theorem make_plan_three_sides_errors :
    make_plan menusThreeSides rnd0 = .error (.emptyCandidates "사이드2") := by rfl

/-- C7: whenever the generator succeeds on a catalog with at least two distinct
`사이드` names, every day's `사이드1` and `사이드2` differ (they always do on
success: `사이드2` is drawn from the side candidates filtered by
`name != 사이드1`). -/
theorem make_plan_side1_ne_side2 (menus : Catalog) (rnd : Nat → DayRand)
    (plans : List DayPlan)
    (_htwo : 2 ≤ ((catItems menus "사이드").map MenuItem.name).dedup.length)
    (hok : make_plan menus rnd = .ok plans) :
    ∀ dp ∈ plans, dp.side1 ≠ "" → dp.side2 ≠ "" → dp.side1 ≠ dp.side2 := by
  intro dp hdp _ _
  exact makePlanAux_ok_side_ne menus weekdays rnd [] plans hok dp hdp

/-- Witness for C7 at a concrete two-side catalog and random source. -/
theorem make_plan_side1_ne_side2_witness :
    ("김치" : String) ≠ "샐러드" :=
  make_plan_side1_ne_side2 menusTwoSides rnd0 plansTwoSides (by decide) (by rfl)
    ⟨"월", "잡곡밥", "된장국", "불고기", "김치", "샐러드", ""⟩ (by decide)
    (by decide) (by decide)

/-! ### Nutrition analyzer (`analyze_menu_plan`)

A plan DataFrame row: column `요일` plus the six slot columns.  `NaN` cells and
columns absent from the DataFrame are modelled as `""` — every consumer in the
source treats the three cases identically (the cell is skipped / exported
as `""`). -/

structure DayRow where
  day : String
  rice : String
  soup : String
  main : String
  side1 : String
  side2 : String
  etc : String
deriving DecidableEq, Repr

/-- Drop leading whitespace characters. -/
def dropWhitespace : List Char → List Char
  | [] => []
  | c :: cs => if c.isWhitespace then dropWhitespace cs else c :: cs

/-- Python's `str.strip()`: remove leading and trailing whitespace. -/
def strip (s : String) : String :=
  ⟨(dropWhitespace (dropWhitespace s.data).reverse).reverse⟩

/-- The value `row[meal_type]` of a slot column in one plan row. -/
def DayRow.cell (r : DayRow) : String → String
  | "잡곡밥" => r.rice
  | "국/수프" => r.soup
  | "메인" => r.main
  | "사이드1" => r.side1
  | "사이드2" => r.side2
  | "기타" => r.etc
  | _ => ""

/-- One row of the analyzer's output DataFrame: `요일`, `구분`, `메뉴` and the five
nutrient columns. -/
structure NutritionRecord where
  day : String
  slot : String
  menu : String
  facts : Nutrition
deriving DecidableEq, Repr

/-- The classification + catalog-insert collaborator (`classify_menu` followed by
`add_menu`): `none` models any exception raised by either step, which
`analyze_menu_plan` catches and answers with `continue`. -/
abbrev Classify := String → Option (String × Nutrition)

/-- The analyzer's loop state: the current catalog snapshot (`menus`), the
`existing_menus` name set, the `nutrition_data` rows so far, and the list of
names passed to the classification collaborator. -/
structure AState where
  menus : Catalog
  existing : List String
  recs : List NutritionRecord
  invoked : List String
deriving Repr

/-- The lookup `menu_info = menus[menus["name"] == menu_name]; if not menu_info.empty:
append the record built from its first row`. -/
def lookupAppend (st : AState) (day slot name : String) : AState :=
  match st.menus.find? (fun m => m.name == name) with
  | some m => { st with recs := st.recs ++ [⟨day, slot, name, m.nutrition⟩] }
  | none => st

/-- The body of the analyzer's inner loop for one `(row, meal_type)` cell:
skip blank cells; for unknown names classify-and-insert (skipping the cell when
that fails); then look the name up and append its record. -/
def processCell (cl : Classify) (st : AState) (day slot raw : String) : AState :=
  let name := strip raw
  if name = "" then st
  else if st.existing.contains name then lookupAppend st day slot name
  else
    match cl name with
    | none => { st with invoked := st.invoked ++ [name] }
    | some info =>
      lookupAppend
        { st with
            menus := st.menus ++ [⟨name, info.1, info.2⟩],
            existing := st.existing ++ [name],
            invoked := st.invoked ++ [name] } day slot name

/-- The inner loop over `meal_types` for one plan row. -/
def processRow (cl : Classify) (st : AState) (r : DayRow) : AState :=
  mealTypes.foldl (fun s slot => processCell cl s r.day slot (r.cell slot)) st

/-- The analyzer's double loop, starting from the fresh catalog snapshot and
`existing_menus = set(menus["name"])`. -/
def analyzeRun (cl : Classify) (menus : Catalog) (plan : List DayRow) : AState :=
  plan.foldl (processRow cl) ⟨menus, menus.map MenuItem.name, [], []⟩

/-- The weekday index of the mapping day_order (월 0, 화 1, 수 2, 목 3, 금 4); a day outside the map (`NaN` after
`.map`) sorts after all mapped days. -/
def dayOrder : String → Nat
  | "월" => 0
  | "화" => 1
  | "수" => 2
  | "목" => 3
  | "금" => 4
  | _ => 5

/-- Code-point lexicographic comparison of character lists — how Python (and so
pandas) compares the `구분` strings during the sort. -/
def charListLe : List Char → List Char → Bool
  | [], _ => true
  | _ :: _, [] => false
  | a :: as, b :: bs =>
    if a.toNat < b.toNat then true
    else if b.toNat < a.toNat then false
    else charListLe as bs

/-- Python's `s <= t` on strings: code-point lexicographic order. -/
def strLe (s t : String) : Bool := charListLe s.data t.data

theorem charListLe_total : ∀ as bs, charListLe as bs = true ∨ charListLe bs as = true
  | [], _ => Or.inl rfl
  | _ :: _, [] => Or.inr rfl
  | a :: as, b :: bs => by
    simp only [charListLe]
    rcases Nat.lt_trichotomy a.toNat b.toNat with h | h | h
    · exact Or.inl (by rw [if_pos h])
    · rcases charListLe_total as bs with hr | hr
      · refine Or.inl ?_
        rw [if_neg (by omega), if_neg (by omega)]
        exact hr
      · refine Or.inr ?_
        rw [if_neg (by omega), if_neg (by omega)]
        exact hr
    · exact Or.inr (by rw [if_pos h])

theorem charListLe_trans : ∀ as bs cs, charListLe as bs = true →
    charListLe bs cs = true → charListLe as cs = true
  | [], _, _, _, _ => rfl
  | _ :: _, [], _, h1, _ => by cases h1
  | _ :: _, _ :: _, [], _, h2 => by cases h2
  | a :: as, b :: bs, c :: cs, h1, h2 => by
    simp only [charListLe] at h1 h2 ⊢
    by_cases hab : a.toNat < b.toNat
    · by_cases hbc : b.toNat < c.toNat
      · rw [if_pos (hab.trans hbc)]
      · by_cases hcb : c.toNat < b.toNat
        · rw [if_neg hbc, if_pos hcb] at h2; cases h2
        · rw [if_pos (show a.toNat < c.toNat by omega)]
    · by_cases hba : b.toNat < a.toNat
      · rw [if_neg hab, if_pos hba] at h1; cases h1
      · rw [if_neg hab, if_neg hba] at h1
        by_cases hbc : b.toNat < c.toNat
        · rw [if_pos (show a.toNat < c.toNat by omega)]
        · by_cases hcb : c.toNat < b.toNat
          · rw [if_neg hbc, if_pos hcb] at h2; cases h2
          · rw [if_neg hbc, if_neg hcb] at h2
            rw [if_neg (show ¬a.toNat < c.toNat by omega),
              if_neg (show ¬c.toNat < a.toNat by omega)]
            exact charListLe_trans as bs cs h1 h2

/-- The sort key of `sort_values(["요일_순서", "구분"])`: weekday index first, then
the slot label compared as a plain string (code-point lexicographic order). -/
def recLe (a b : NutritionRecord) : Prop :=
  dayOrder a.day < dayOrder b.day ∨
    (dayOrder a.day = dayOrder b.day ∧ strLe a.slot b.slot = true)

instance : DecidableRel recLe := fun a b => by unfold recLe; infer_instance

theorem recLe_total : ∀ a b, recLe a b ∨ recLe b a := by
  intro a b
  rcases Nat.lt_trichotomy (dayOrder a.day) (dayOrder b.day) with h | h | h
  · exact Or.inl (Or.inl h)
  · rcases charListLe_total a.slot.data b.slot.data with hs | hs
    · exact Or.inl (Or.inr ⟨h, hs⟩)
    · exact Or.inr (Or.inr ⟨h.symm, hs⟩)
  · exact Or.inr (Or.inl h)

theorem recLe_trans : ∀ a b c, recLe a b → recLe b c → recLe a c := by
  rintro a b c (h1 | ⟨h1, h1s⟩) (h2 | ⟨h2, h2s⟩)
  · exact Or.inl (h1.trans h2)
  · exact Or.inl (h2 ▸ h1)
  · exact Or.inl (h1 ▸ h2)
  · exact Or.inr ⟨h1.trans h2, charListLe_trans _ _ _ h1s h2s⟩

instance : IsTotal NutritionRecord recLe := ⟨recLe_total⟩

instance : IsTrans NutritionRecord recLe := ⟨recLe_trans⟩

/-- The final `sort_values(["요일_순서", "구분"])` — a stable sort
(pandas uses `lexsort` for multi-key sorts) by `recLe`. -/
def sortRecs (l : List NutritionRecord) : List NutritionRecord :=
  List.insertionSort recLe l

/-- The analyzer's failure: `nutrition_df["요일"]` raises a `KeyError` when
`nutrition_data` collected zero rows (`pd.DataFrame([])` has no columns). -/
inductive AnalyzeErr where
  | emptyFrame
deriving DecidableEq, Repr

/-- The analyzer `analyze_menu_plan`: run the double loop, then sort; on an empty record set
the sort preamble raises (`KeyError` on the missing `요일` column). -/
def analyze_menu_plan (cl : Classify) (menus : Catalog) (plan : List DayRow) :
    Except AnalyzeErr (List NutritionRecord) :=
  let recs := (analyzeRun cl menus plan).recs
  if recs.isEmpty then .error .emptyFrame else .ok (sortRecs recs)

/-- The names `analyze_menu_plan` hands to the classification collaborator, in
call order. -/
def classifyCalls (cl : Classify) (menus : Catalog) (plan : List DayRow) : List String :=
  (analyzeRun cl menus plan).invoked

/-! ### C2: output order of the analyzer -/

/-- C2 (amended): whatever the analyzer returns is sorted by the key
`(요일_순서, 구분)` — weekday index first, then the slot label as a plain string. -/
theorem analyze_menu_plan_sorted (cl : Classify) (menus : Catalog) (plan : List DayRow)
    (recs : List NutritionRecord) (h : analyze_menu_plan cl menus plan = .ok recs) :
    List.Sorted recLe recs := by
  simp only [analyze_menu_plan] at h
  split at h
  · cases h
  · injection h with h
    subst h
    exact List.sorted_insertionSort recLe _

/-- A classification collaborator that always fails. -/
def clNone : Classify := fun _ => none

/-- Catalog for the C2 counterexample: a `메인` item and a `기타` item. -/
def catC2 : Catalog :=
  [⟨"불고기", "메인", ⟨500, 30, 20, 10, 800⟩⟩, ⟨"과일", "기타", ⟨100, 1, 0, 25, 2⟩⟩]

/-- Plan for the C2 counterexample: Monday with a `메인` cell and a `기타` cell. -/
def planC2 : List DayRow := [⟨"월", "", "", "불고기", "", "", "과일"⟩]

/-- The slot order C2 claims: the fixed enumeration
`국/수프 < 메인 < 사이드1 < 사이드2 < 기타`. -/
def claimedSlotRank : String → Nat
  | "국/수프" => 0
  | "메인" => 1
  | "사이드1" => 2
  | "사이드2" => 3
  | "기타" => 4
  | _ => 5

/-- The comparison C2 claims the output is sorted by. -/
def claimedRecLe (a b : NutritionRecord) : Prop :=
  dayOrder a.day < dayOrder b.day ∨
    (dayOrder a.day = dayOrder b.day ∧ claimedSlotRank a.slot ≤ claimedSlotRank b.slot)

instance : DecidableRel claimedRecLe := fun a b => by unfold claimedRecLe; infer_instance

/-- C2 counterexample: the analyzer puts the `기타` record before the `메인`
record of the same day (string order `기타 < 메인`), so the output is not sorted
in the claimed enumeration order, which puts `기타` last. -/
theorem analyze_menu_plan_sort_counterexample :
    analyze_menu_plan clNone catC2 planC2 =
      .ok [⟨"월", "기타", "과일", ⟨100, 1, 0, 25, 2⟩⟩,
           ⟨"월", "메인", "불고기", ⟨500, 30, 20, 10, 800⟩⟩] ∧
    ¬ List.Sorted claimedRecLe
      [⟨"월", "기타", "과일", ⟨100, 1, 0, 25, 2⟩⟩,
       ⟨"월", "메인", "불고기", ⟨500, 30, 20, 10, 800⟩⟩] :=
  ⟨by rfl, by decide⟩

/-- Witness for the amended C2 at a concrete plan and catalog. -/
theorem analyze_menu_plan_sorted_witness :
    List.Sorted recLe
      [⟨"월", "기타", "과일", ⟨100, 1, 0, 25, 2⟩⟩,
       ⟨"월", "메인", "불고기", ⟨500, 30, 20, 10, 800⟩⟩] :=
  analyze_menu_plan_sorted clNone catC2 planC2
    [⟨"월", "기타", "과일", ⟨100, 1, 0, 25, 2⟩⟩,
     ⟨"월", "메인", "불고기", ⟨500, 30, 20, 10, 800⟩⟩] (by rfl)

/-! ### C9: plans whose non-blank cells are all catalog-known -/

theorem contains_of_mem {l : List String} {a : String} (h : a ∈ l) :
    l.contains a = true :=
  List.elem_iff.mpr h

theorem mem_of_contains {l : List String} {a : String} (h : l.contains a = true) :
    a ∈ l :=
  List.elem_iff.mp h

theorem find_name_of_mem {menus : Catalog} {name : String}
    (h : name ∈ menus.map MenuItem.name) :
    ∃ m, menus.find? (fun m => m.name == name) = some m := by
  induction menus with
  | nil => cases h
  | cons a l ih =>
    rw [List.map_cons, List.mem_cons] at h
    cases ha : (a.name == name) with
    | true => exact ⟨a, by simp only [List.find?]; rw [ha]⟩
    | false =>
      have h2 : name ∈ l.map MenuItem.name := by
        rcases h with h | h
        · rw [h] at ha; simp at ha
        · exact h
      obtain ⟨m, hm⟩ := ih h2
      refine ⟨m, ?_⟩
      simp only [List.find?]
      rw [ha]
      exact hm

theorem lookupAppend_found (st : AState) (day slot name : String)
    (h : name ∈ st.menus.map MenuItem.name) :
    ∃ m : MenuItem, lookupAppend st day slot name =
      { st with recs := st.recs ++ [⟨day, slot, name, m.nutrition⟩] } := by
  obtain ⟨m, hm⟩ := find_name_of_mem h
  refine ⟨m, ?_⟩
  unfold lookupAppend
  rw [hm]

/-- On a cell whose (stripped) name is blank or already in the catalog, one
analyzer step keeps the catalog snapshot and the name set, performs no
classification call, and appends one record exactly when the cell is
non-blank. -/
theorem processCell_known (cl : Classify) (menus0 : Catalog) (st : AState)
    (day slot raw : String)
    (hm : st.menus = menus0) (he : st.existing = menus0.map MenuItem.name)
    (hk : strip raw ≠ "" → strip raw ∈ menus0.map MenuItem.name) :
    (processCell cl st day slot raw).menus = menus0 ∧
    (processCell cl st day slot raw).existing = menus0.map MenuItem.name ∧
    (processCell cl st day slot raw).invoked = st.invoked ∧
    (processCell cl st day slot raw).recs.length =
      st.recs.length + (if strip raw = "" then 0 else 1) := by
  by_cases hb : strip raw = ""
  · simp only [processCell]
    rw [if_pos hb]
    exact ⟨hm, he, rfl, by rw [if_pos hb]; rfl⟩
  · have hkm := hk hb
    have hcont : st.existing.contains (strip raw) = true := by
      rw [he]; exact contains_of_mem hkm
    simp only [processCell]
    rw [if_neg hb, if_pos hcont]
    obtain ⟨m, hla⟩ := lookupAppend_found st day slot (strip raw) (by rw [hm]; exact hkm)
    rw [hla]
    refine ⟨hm, he, rfl, ?_⟩
    rw [if_neg hb]
    simp

/-- Number of analyzed (non-blank after strip, non-`잡곡밥`) cells in one row. -/
def rowCellCount (r : DayRow) : Nat :=
  (mealTypes.filter (fun slot => !(strip (r.cell slot) == ""))).length

/-- Number of analyzed cells in a plan. -/
def cellCount (plan : List DayRow) : Nat := (plan.map rowCellCount).sum

theorem processSlots_known (cl : Classify) (menus0 : Catalog) (r : DayRow) :
    ∀ (slots : List String) (st : AState),
    (∀ slot ∈ slots, strip (r.cell slot) ≠ "" →
      strip (r.cell slot) ∈ menus0.map MenuItem.name) →
    st.menus = menus0 → st.existing = menus0.map MenuItem.name →
    ((slots.foldl (fun s slot => processCell cl s r.day slot (r.cell slot)) st).menus
        = menus0 ∧
     (slots.foldl (fun s slot => processCell cl s r.day slot (r.cell slot)) st).existing
        = menus0.map MenuItem.name ∧
     (slots.foldl (fun s slot => processCell cl s r.day slot (r.cell slot)) st).invoked
        = st.invoked ∧
     (slots.foldl (fun s slot => processCell cl s r.day slot (r.cell slot)) st).recs.length
        = st.recs.length +
          (slots.filter (fun slot => !(strip (r.cell slot) == ""))).length) := by
  intro slots
  induction slots with
  | nil => intro st _ hm he; exact ⟨hm, he, rfl, by simp⟩
  | cons s ss ih =>
    intro st hk hm he
    simp only [List.foldl_cons]
    obtain ⟨h1, h2, h3, h4⟩ := processCell_known cl menus0 st r.day s (r.cell s) hm he
      (hk s (List.mem_cons_self s ss))
    obtain ⟨g1, g2, g3, g4⟩ := ih (processCell cl st r.day s (r.cell s))
      (fun sl hsl => hk sl (List.mem_cons_of_mem s hsl)) h1 h2
    refine ⟨g1, g2, by rw [g3, h3], ?_⟩
    rw [g4, h4]
    have hflen : ((s :: ss).filter (fun slot => !(strip (r.cell slot) == ""))).length
        = (if strip (r.cell s) = "" then 0 else 1)
          + (ss.filter (fun slot => !(strip (r.cell slot) == ""))).length := by
      by_cases hc : strip (r.cell s) = ""
      · have hbeq : (strip (r.cell s) == "") = true := beq_iff_eq.mpr hc
        simp [List.filter_cons, hbeq, hc]
      · have hbeq : (strip (r.cell s) == "") = false := by
          cases hbool : strip (r.cell s) == ""
          · rfl
          · exact absurd (beq_iff_eq.mp hbool) hc
        simp only [List.filter_cons, hbeq, Bool.not_false, if_pos, List.length_cons]
        rw [if_neg hc]
        omega
    rw [hflen]
    omega

theorem analyzeRun_known (cl : Classify) (menus : Catalog) :
    ∀ (plan : List DayRow) (st : AState),
    (∀ r ∈ plan, ∀ slot ∈ mealTypes, strip (r.cell slot) ≠ "" →
      strip (r.cell slot) ∈ menus.map MenuItem.name) →
    st.menus = menus → st.existing = menus.map MenuItem.name →
    ((plan.foldl (processRow cl) st).menus = menus ∧
     (plan.foldl (processRow cl) st).existing = menus.map MenuItem.name ∧
     (plan.foldl (processRow cl) st).invoked = st.invoked ∧
     (plan.foldl (processRow cl) st).recs.length = st.recs.length + cellCount plan) := by
  intro plan
  induction plan with
  | nil => intro st _ hm he; exact ⟨hm, he, rfl, by simp [cellCount]⟩
  | cons r rs ih =>
    intro st hk hm he
    simp only [List.foldl_cons]
    obtain ⟨h1, h2, h3, h4⟩ := processSlots_known cl menus r mealTypes st
      (hk r (List.mem_cons_self r rs)) hm he
    obtain ⟨g1, g2, g3, g4⟩ := ih (processRow cl st r)
      (fun r2 hr2 => hk r2 (List.mem_cons_of_mem r hr2)) h1 h2
    refine ⟨g1, g2, ?_, ?_⟩
    · rw [g3]; exact h3
    · rw [g4]
      have h4' : (processRow cl st r).recs.length = st.recs.length + rowCellCount r := h4
      rw [h4']
      simp only [cellCount, List.map_cons, List.sum_cons]
      omega

/-- C9 (amended): on a plan whose non-blank analyzed cells all name items already
in the catalog — and which has at least one such cell — the analyzer performs no
classification call and returns exactly one record per such cell. -/
theorem analyze_known_no_classify (cl : Classify) (menus : Catalog) (plan : List DayRow)
    (hknown : ∀ r ∈ plan, ∀ slot ∈ mealTypes, strip (r.cell slot) ≠ "" →
      strip (r.cell slot) ∈ menus.map MenuItem.name)
    (hpos : 0 < cellCount plan) :
    classifyCalls cl menus plan = [] ∧
    ∃ recs, analyze_menu_plan cl menus plan = .ok recs ∧
      recs.length = cellCount plan := by
  obtain ⟨_, _, h3, h4⟩ := analyzeRun_known cl menus plan
    ⟨menus, menus.map MenuItem.name, [], []⟩ hknown rfl rfl
  have h4' : (analyzeRun cl menus plan).recs.length = 0 + cellCount plan := h4
  refine ⟨h3, sortRecs (analyzeRun cl menus plan).recs, ?_, ?_⟩
  · have hne : (analyzeRun cl menus plan).recs.isEmpty ≠ true := by
      intro hh
      have hh2 : (analyzeRun cl menus plan).recs = [] := List.isEmpty_iff.mp hh
      rw [hh2] at h4'
      simp at h4'
      omega
    simp only [analyze_menu_plan]
    rw [if_neg hne]
  · have hlen : (sortRecs (analyzeRun cl menus plan).recs).length
        = (analyzeRun cl menus plan).recs.length := by
      simp [sortRecs]
    rw [hlen]
    omega

/-- Catalog and plan for the C9 witness: one known side dish on Monday. -/
def catKnown : Catalog := [⟨"김치", "사이드", ⟨50, 2, 1, 8, 600⟩⟩]

/-- A plan whose only analyzed cell (`사이드1` on Monday) is catalog-known. -/
def planKnown : List DayRow := [⟨"월", "잡곡밥", "", "", "김치", "", ""⟩]

/-- Witness for the amended C9 at a concrete known-names plan. -/
theorem analyze_known_no_classify_witness :
    classifyCalls clNone catKnown planKnown = [] ∧
    ∃ recs, analyze_menu_plan clNone catKnown planKnown = .ok recs ∧
      recs.length = cellCount planKnown :=
  analyze_known_no_classify clNone catKnown planKnown (by decide) (by decide)

/-- A plan with no analyzed cell at all: only `요일` and the rice column are
filled. Its non-empty cells vacuously all reference catalog-known names. -/
def planBlank : List DayRow :=
  [⟨"월", "잡곡밥", "", "", "", "", ""⟩, ⟨"화", "잡곡밥", "", "", "", "", ""⟩,
   ⟨"수", "잡곡밥", "", "", "", "", ""⟩, ⟨"목", "잡곡밥", "", "", "", "", ""⟩,
   ⟨"금", "잡곡밥", "", "", "", "", ""⟩]

/-- C9 counterexample: on a plan with zero analyzed cells the analyzer does not
return the (empty) record set the claim promises — it fails, because the final
sort step raises a `KeyError` on the empty DataFrame. -/
theorem analyze_blank_plan_errors :
    analyze_menu_plan clNone catKnown planBlank = .error .emptyFrame ∧
    cellCount planBlank = 0 :=
  ⟨by rfl, by rfl⟩

/-! ### C8: per-item classification failures -/

/-- A cell on which the analyzer's classify-and-insert step fails: non-blank,
not among the initial catalog names, and the collaborator raises for it.
(Names added during a run are exactly those the collaborator succeeded on, so
such a cell fails wherever it occurs in the plan.) -/
def cellFails (cl : Classify) (menus : Catalog) (raw : String) : Bool :=
  !(strip raw == "") && !((menus.map MenuItem.name).contains (strip raw))
    && (cl (strip raw)).isNone

/-- Blank out a failing cell. -/
def blankFailCell (cl : Classify) (menus : Catalog) (raw : String) : String :=
  if cellFails cl menus raw then "" else raw

/-- Blank out the failing analyzed cells of one plan row. -/
def blankFailRow (cl : Classify) (menus : Catalog) (r : DayRow) : DayRow :=
  ⟨r.day, r.rice, blankFailCell cl menus r.soup, blankFailCell cl menus r.main,
   blankFailCell cl menus r.side1, blankFailCell cl menus r.side2,
   blankFailCell cl menus r.etc⟩

/-- Blank out the failing analyzed cells of a whole plan. -/
def blankFailPlan (cl : Classify) (menus : Catalog) (plan : List DayRow) : List DayRow :=
  plan.map (blankFailRow cl menus)

/-- Equality of two analyzer states up to the classification-call log. -/
def StEq (st1 st2 : AState) : Prop :=
  st1.menus = st2.menus ∧ st1.existing = st2.existing ∧ st1.recs = st2.recs

/-- Run invariant: the known-name set holds the initial catalog names and
otherwise only names the collaborator classifies successfully. -/
def InvNames (cl : Classify) (menus : Catalog) (xs : List String) : Prop :=
  (∀ n, xs.contains n = true →
    (menus.map MenuItem.name).contains n = true ∨ (cl n).isSome = true) ∧
  (∀ n, (menus.map MenuItem.name).contains n = true → xs.contains n = true)

def InvState (cl : Classify) (menus : Catalog) (st : AState) : Prop :=
  InvNames cl menus st.existing

theorem invNames_extend (cl : Classify) (menus : Catalog) (xs : List String)
    (name : String) (h : InvNames cl menus xs) (hsome : (cl name).isSome = true) :
    InvNames cl menus (xs ++ [name]) := by
  constructor
  · intro n hn
    rcases List.mem_append.mp (mem_of_contains hn) with hi | hi
    · exact h.1 n (contains_of_mem hi)
    · have hn2 : n = name := by simpa using hi
      rw [hn2]
      exact Or.inr hsome
  · intro n hn
    exact contains_of_mem (List.mem_append_left _ (mem_of_contains (h.2 n hn)))

/-- One analyzer step only ever grows the known-name set with a name the
collaborator succeeded on, so the run invariant is preserved. -/
theorem processCell_inv (cl : Classify) (menus : Catalog) (st : AState)
    (day slot raw : String) (hInv : InvState cl menus st) :
    InvState cl menus (processCell cl st day slot raw) := by
  simp only [processCell]
  by_cases hb : strip raw = ""
  · rw [if_pos hb]; exact hInv
  · rw [if_neg hb]
    by_cases hex : st.existing.contains (strip raw) = true
    · rw [if_pos hex]
      unfold lookupAppend
      cases hfind : st.menus.find? (fun m => m.name == strip raw) with
      | some m => exact hInv
      | none => exact hInv
    · rw [if_neg hex]
      cases hcl : cl (strip raw) with
      | none => exact hInv
      | some info =>
        unfold lookupAppend
        dsimp only
        cases hfind : (st.menus ++ [(⟨strip raw, info.1, info.2⟩ : MenuItem)]).find?
            (fun m => m.name == strip raw) with
        | some m =>
          exact invNames_extend cl menus st.existing (strip raw) hInv (by rw [hcl]; rfl)
        | none =>
          exact invNames_extend cl menus st.existing (strip raw) hInv (by rw [hcl]; rfl)

/-- The analyzer step reads and writes only the catalog snapshot, the name set
and the record list — states equal on those fields stay equal on them. -/
theorem processCell_congr (cl : Classify) (st1 st2 : AState) (day slot raw : String)
    (heq : StEq st1 st2) :
    StEq (processCell cl st1 day slot raw) (processCell cl st2 day slot raw) := by
  obtain ⟨e1, e2, e3⟩ := heq
  cases st1 with
  | mk m1 x1 r1 i1 =>
  cases st2 with
  | mk m2 x2 r2 i2 =>
  dsimp only at e1 e2 e3
  subst e1
  subst e2
  subst e3
  simp only [processCell, lookupAppend]
  by_cases hb : strip raw = ""
  · rw [if_pos hb, if_pos hb]; exact ⟨rfl, rfl, rfl⟩
  · rw [if_neg hb, if_neg hb]
    by_cases hex : x1.contains (strip raw) = true
    · rw [if_pos hex, if_pos hex]
      cases hfind : m1.find? (fun m => m.name == strip raw) with
      | some m => exact ⟨rfl, rfl, rfl⟩
      | none => exact ⟨rfl, rfl, rfl⟩
    · rw [if_neg hex, if_neg hex]
      cases hcl : cl (strip raw) with
      | none => exact ⟨rfl, rfl, rfl⟩
      | some info =>
        dsimp only
        cases hfind : (m1 ++ [(⟨strip raw, info.1, info.2⟩ : MenuItem)]).find?
            (fun m => m.name == strip raw) with
        | some m => exact ⟨rfl, rfl, rfl⟩
        | none => exact ⟨rfl, rfl, rfl⟩

/-- One step on a failing cell only logs the failed call; on any other cell it
acts exactly as the same step on the cell with failing content blanked out. -/
theorem processCell_blankFail (cl : Classify) (menus : Catalog) (st1 st2 : AState)
    (day slot raw : String) (hInv : InvState cl menus st1) (heq : StEq st1 st2) :
    StEq (processCell cl st1 day slot raw)
      (processCell cl st2 day slot (blankFailCell cl menus raw)) ∧
    InvState cl menus (processCell cl st1 day slot raw) := by
  refine ⟨?_, processCell_inv cl menus st1 day slot raw hInv⟩
  obtain ⟨e1, e2, e3⟩ := heq
  by_cases hf : cellFails cl menus raw = true
  · have hblank : blankFailCell cl menus raw = "" := by
      unfold blankFailCell; rw [if_pos hf]
    rw [hblank]
    have hr : processCell cl st2 day slot "" = st2 := rfl
    rw [hr]
    unfold cellFails at hf
    rw [Bool.and_eq_true, Bool.and_eq_true] at hf
    obtain ⟨⟨hb, hn⟩, hcl⟩ := hf
    have hb2 : ¬ strip raw = "" := by
      intro hh; rw [hh] at hb; simp at hb
    have hclnone : cl (strip raw) = none := by
      cases hclv : cl (strip raw)
      · rfl
      · rw [hclv] at hcl; cases hcl
    have hnotex : st1.existing.contains (strip raw) = false := by
      cases hex : st1.existing.contains (strip raw)
      · rfl
      · rcases hInv.1 (strip raw) hex with hmem | hsome
        · rw [hmem] at hn; cases hn
        · rw [hclnone] at hsome; cases hsome
    simp only [processCell]
    rw [if_neg hb2, hnotex]
    rw [if_neg (by simp : ¬ (false = true))]
    rw [hclnone]
    exact ⟨e1, e2, e3⟩
  · have hblank : blankFailCell cl menus raw = raw := by
      unfold blankFailCell; rw [if_neg hf]
    rw [hblank]
    exact processCell_congr cl st1 st2 day slot raw ⟨e1, e2, e3⟩

theorem processRow_blankFail (cl : Classify) (menus : Catalog) (st1 st2 : AState)
    (r : DayRow) (hInv : InvState cl menus st1) (heq : StEq st1 st2) :
    StEq (processRow cl st1 r) (processRow cl st2 (blankFailRow cl menus r)) ∧
    InvState cl menus (processRow cl st1 r) := by
  obtain ⟨q1, i1⟩ := processCell_blankFail cl menus st1 st2 r.day "국/수프" r.soup hInv heq
  obtain ⟨q2, i2⟩ := processCell_blankFail cl menus _ _ r.day "메인" r.main i1 q1
  obtain ⟨q3, i3⟩ := processCell_blankFail cl menus _ _ r.day "사이드1" r.side1 i2 q2
  obtain ⟨q4, i4⟩ := processCell_blankFail cl menus _ _ r.day "사이드2" r.side2 i3 q3
  obtain ⟨q5, i5⟩ := processCell_blankFail cl menus _ _ r.day "기타" r.etc i4 q4
  exact ⟨q5, i5⟩

theorem analyzeRun_blankFail (cl : Classify) (menus : Catalog) :
    ∀ (plan : List DayRow) (st1 st2 : AState),
    InvState cl menus st1 → StEq st1 st2 →
    StEq (plan.foldl (processRow cl) st1)
      ((plan.map (blankFailRow cl menus)).foldl (processRow cl) st2) := by
  intro plan
  induction plan with
  | nil => intro st1 st2 _ heq; exact heq
  | cons r rs ih =>
    intro st1 st2 hInv heq
    simp only [List.map_cons, List.foldl_cons]
    obtain ⟨q, i⟩ := processRow_blankFail cl menus st1 st2 r hInv heq
    exact ih (processRow cl st1 r) (processRow cl st2 (blankFailRow cl menus r)) i q

/-- C8 (amended): blanking exactly the failing cells of a plan leaves the
analyzer's result unchanged — a failing cell contributes no record and no
catalog change, and the run continues exactly as if that cell were empty,
including the failure of the whole run when no records remain at all. -/
theorem analyze_menu_plan_skips_failing_cells (cl : Classify) (menus : Catalog)
    (plan : List DayRow) :
    analyze_menu_plan cl menus (blankFailPlan cl menus plan)
      = analyze_menu_plan cl menus plan := by
  have hinv0 : InvState cl menus ⟨menus, menus.map MenuItem.name, [], []⟩ :=
    ⟨fun _ hn => Or.inl hn, fun _ hn => hn⟩
  obtain ⟨_, _, hrecs⟩ := analyzeRun_blankFail cl menus plan
    ⟨menus, menus.map MenuItem.name, [], []⟩ ⟨menus, menus.map MenuItem.name, [], []⟩
    hinv0 ⟨rfl, rfl, rfl⟩
  have hrecs2 : (analyzeRun cl menus plan).recs
      = (analyzeRun cl menus (blankFailPlan cl menus plan)).recs := hrecs
  simp only [analyze_menu_plan]
  rw [hrecs2]

/-- Plan for the C8 counterexample: the only analyzed cell names an unknown
menu. -/
def planUnknown : List DayRow := [⟨"월", "", "", "신메뉴", "", "", ""⟩]

/-- C8 counterexample: with an empty catalog and a collaborator that raises,
the analyzer does attempt to classify the single cell and skips it, but with no
records left the whole run then fails (the empty-frame `KeyError`) instead of
returning the remaining (zero) records — the per-item failure is fatal. -/
theorem analyze_failure_fatal_when_no_records :
    classifyCalls clNone [] planUnknown = ["신메뉴"] ∧
    analyze_menu_plan clNone [] planUnknown = .error .emptyFrame :=
  ⟨by rfl, by rfl⟩

/-! ### C10: daily totals (`export_plan`'s groupby) -/

/-- Python's string order as a relation, for the group-key sort. -/
def strOrd (s t : String) : Prop := strLe s t = true

instance : DecidableRel strOrd := fun s t => by unfold strOrd; infer_instance

/-- The group keys of `groupby("요일")`: the distinct `요일` values of the record
set (pandas returns them sorted as strings). -/
def dayKeys (recs : List NutritionRecord) : List String :=
  (List.insertionSort strOrd (recs.map NutritionRecord.day)).dedup

/-- The per-group aggregation (sum per nutrient column): the componentwise nutrient sum. -/
def sumFacts (recs : List NutritionRecord) : Nutrition :=
  (recs.map NutritionRecord.facts).foldl Nutrition.add Nutrition.zero

/-- The `일일 영양소 합계` sheet: one `(요일, sums)` row per distinct weekday
appearing in the record set. -/
def daily_totals (recs : List NutritionRecord) : List (String × Nutrition) :=
  (dayKeys recs).map (fun d => (d, sumFacts (recs.filter (fun r => r.day == d))))

/-- C10: a `(day, totals)` row appears in the daily-totals table exactly when
that day occurs among the records, and then the totals are the componentwise
nutrient sums of that day's records; absent weekdays yield no row. -/
theorem daily_totals_correct (recs : List NutritionRecord) (_hne : recs ≠ [])
    (d : String) (n : Nutrition) :
    (d, n) ∈ daily_totals recs ↔
      (d ∈ recs.map NutritionRecord.day ∧
        n = sumFacts (recs.filter (fun r => r.day == d))) := by
  constructor
  · intro h
    obtain ⟨d2, hd2, heq⟩ := List.mem_map.mp h
    injection heq with hA hB
    subst hA
    refine ⟨?_, hB.symm⟩
    have hmem := List.mem_dedup.mp hd2
    exact (List.mem_insertionSort _).mp hmem
  · rintro ⟨hd, rfl⟩
    exact List.mem_map.mpr
      ⟨d, List.mem_dedup.mpr ((List.mem_insertionSort _).mpr hd), rfl⟩

/-- Two Monday records with calories 300 and 450. -/
def recsMonday : List NutritionRecord :=
  [⟨"월", "국/수프", "미역국", ⟨300, 10, 5, 20, 900⟩⟩,
   ⟨"월", "메인", "불고기", ⟨450, 30, 20, 15, 800⟩⟩]

/-- Witness for C10: the Monday totals row sums the two Monday records
(300 + 450 = 750 calories, and so on per nutrient). -/
theorem daily_totals_correct_witness :
    ("월", (⟨750, 40, 25, 35, 1700⟩ : Nutrition)) ∈ daily_totals recsMonday :=
  (daily_totals_correct recsMonday (by decide) "월" ⟨750, 40, 25, 35, 1700⟩).mpr
    (by decide)

/-! ### Transposed export (`export_plan`'s plan sheet) and import (`app.py`)

A spreadsheet sheet, as the import handler sees it after `xl.parse(sheet_name,
index_col=0)`: the first column supplies the row labels (`rows`, each label with
its cells, one per data column), the first row supplies the column labels
(`cols`).  Missing cells are `""` (the analyzer and the export treat `NaN`,
absent and `""` cells identically). -/

structure Grid where
  cols : List String
  rows : List (String × List String)
deriving DecidableEq, Repr

/-- The selection `plan_df.loc[plan_df["요일"] == day, row_name]` — first row of the plan with
that weekday. -/
def planLookup (plan : List DayRow) (d : String) : Option DayRow :=
  plan.find? (fun r => r.day == d)

/-- The plan sheet `export_plan` writes: one row per slot label of `row_order`,
one column per weekday, each cell the matching plan value (or `""` when the
plan has no row for that weekday). -/
def export_plan_sheet (plan : List DayRow) : Grid :=
  ⟨weekdays, rowOrder.map (fun rl =>
    (rl, weekdays.map (fun d =>
      match planLookup plan d with
      | some r => r.cell rl
      | none => "")))⟩

/-- The row access `df.loc[label]` — the cell list of the first sheet row with this label. -/
def findRowCells (rows : List (String × List String)) (label : String) :
    Option (List String) :=
  (rows.find? (fun p => p.1 == label)).map Prod.snd

/-- The value of slot `slot` in sheet column `j` after the transpose: `""` when
the sheet has no row with that label (the `exist_rows` filter dropped it) or
the row is too short. -/
def importCellAt (rows : List (String × List String)) (slot : String) (j : Nat) :
    String :=
  match findRowCells rows slot with
  | some cells => cells.getD j ""
  | none => ""

/-- The transpose `df.T.reset_index()`: one plan row per sheet column, in column order. -/
def importRows (rows : List (String × List String)) :
    List String → Nat → List DayRow
  | [], _ => []
  | c :: cs, j =>
    ⟨c, importCellAt rows "잡곡밥" j, importCellAt rows "국/수프" j,
     importCellAt rows "메인" j, importCellAt rows "사이드1" j,
     importCellAt rows "사이드2" j, importCellAt rows "기타" j⟩
      :: importRows rows cs (j + 1)

/-- The `menu-board-analysis` sheet import: strip row and column labels, keep
the recognized slot rows, transpose, and keep only the five weekday columns. -/
def importSheet (g : Grid) : List DayRow :=
  (importRows (g.rows.map (fun p => (strip p.1, p.2))) (g.cols.map strip) 0).filter
    (fun r => weekdays.contains r.day)

/-- The import handler's failure: no sheet named `점심` or `저녁` (after
stripping) exists in the workbook. -/
inductive ImportErr where
  | noSheet
deriving DecidableEq, Repr

/-- The full import handler: pick the first sheet whose stripped name is `점심`
or `저녁`, else fail; then normalize that sheet into plan rows. -/
def import_plan (wb : List (String × Grid)) : Except ImportErr (List DayRow) :=
  match wb.find? (fun p => strip p.1 == "점심" || strip p.1 == "저녁") with
  | some p => .ok (importSheet p.2)
  | none => .error .noSheet

/-- C4: exporting a canonical WeeklyPlan (one row per weekday, Monday through
Friday in order) to the transposed sheet and importing that sheet back yields
the same plan — every cell value at every weekday/slot coordinate is
preserved. -/
theorem export_import_roundtrip (r0 r1 r2 r3 r4 : DayRow)
    (h0 : r0.day = "월") (h1 : r1.day = "화") (h2 : r2.day = "수")
    (h3 : r3.day = "목") (h4 : r4.day = "금") :
    import_plan [("점심", export_plan_sheet [r0, r1, r2, r3, r4])] =
      .ok [r0, r1, r2, r3, r4] := by
  cases r0
  cases r1
  cases r2
  cases r3
  cases r4
  dsimp only at h0 h1 h2 h3 h4
  subst h0
  subst h1
  subst h2
  subst h3
  subst h4
  rfl

/-- A concrete WeeklyPlan for the C4 witness. -/
def planRound : List DayRow :=
  [⟨"월", "잡곡밥", "된장국", "불고기", "김치", "샐러드", ""⟩,
   ⟨"화", "잡곡밥", "미역국", "제육볶음", "멸치볶음", "김치", "과일"⟩,
   ⟨"수", "잡곡밥", "김치찌개", "닭갈비", "시금치나물", "두부조림", ""⟩,
   ⟨"목", "잡곡밥", "순두부찌개", "비빔밥", "계란말이", "김치", ""⟩,
   ⟨"금", "잡곡밥", "된장국", "불고기", "샐러드", "멸치볶음", ""⟩]

/-- Witness for C4 at a concrete plan. -/
theorem export_import_roundtrip_witness :
    import_plan [("점심", export_plan_sheet planRound)] = .ok planRound :=
  export_import_roundtrip
    ⟨"월", "잡곡밥", "된장국", "불고기", "김치", "샐러드", ""⟩
    ⟨"화", "잡곡밥", "미역국", "제육볶음", "멸치볶음", "김치", "과일"⟩
    ⟨"수", "잡곡밥", "김치찌개", "닭갈비", "시금치나물", "두부조림", ""⟩
    ⟨"목", "잡곡밥", "순두부찌개", "비빔밥", "계란말이", "김치", ""⟩
    ⟨"금", "잡곡밥", "된장국", "불고기", "샐러드", "멸치볶음", ""⟩
    rfl rfl rfl rfl rfl

/-! ### C5: sheets with no recognizable weekday column -/

theorem importRows_no_weekday (rows : List (String × List String)) :
    ∀ (cs : List String) (j : Nat), (∀ c ∈ cs, c ∉ weekdays) →
    (importRows rows cs j).filter (fun r => weekdays.contains r.day) = [] := by
  intro cs
  induction cs with
  | nil => intro j _; rfl
  | cons c cs ih =>
    intro j h
    have hc : weekdays.contains c = false := by
      cases hb : weekdays.contains c
      · rfl
      · exact absurd (mem_of_contains hb) (h c (List.mem_cons_self c cs))
    simp only [importRows, List.filter_cons]
    rw [hc]
    simp only [Bool.false_eq_true, if_false]
    exact ih (j + 1) (fun c2 hc2 => h c2 (List.mem_cons_of_mem c hc2))

/-- C5 (amended): a `점심` sheet none of whose stripped column labels is a
weekday does not make the import fail — the weekday filter simply removes every
row, and the import succeeds with an empty plan. -/
theorem import_no_weekday_columns (g : Grid)
    (h : ∀ c ∈ g.cols, strip c ∉ weekdays) :
    import_plan [("점심", g)] = .ok [] := by
  have hsheet : importSheet g = [] := by
    unfold importSheet
    apply importRows_no_weekday
    intro c hc
    obtain ⟨c0, hc0, hceq⟩ := List.mem_map.mp hc
    rw [← hceq]
    exact h c0 hc0
  calc import_plan [("점심", g)] = .ok (importSheet g) := rfl
    _ = .ok [] := by rw [hsheet]

/-- A sheet whose columns are the weekend labels only. -/
def gridWeekend : Grid := ⟨["토", "일"], [("메인", ["김치찌개", "비빔밥"])]⟩

/-- C5 counterexample: importing a workbook whose `점심` sheet has no weekday
column returns normally (with zero plan rows) — no error of any kind is
raised at import time. -/
theorem import_no_weekday_columns_counterexample :
    import_plan [("점심", gridWeekend)] = .ok [] := by rfl

/-- Witness for the amended C5 at a second concrete sheet. -/
theorem import_no_weekday_columns_witness :
    import_plan [("점심", (⟨["날짜", "비고"], [("국/수프", ["된장국", "미역국"])]⟩ : Grid))]
      = .ok [] :=
  import_no_weekday_columns ⟨["날짜", "비고"], [("국/수프", ["된장국", "미역국"])]⟩
    (by decide)

end MealAI
